import Mathlib

set_option maxRecDepth 16384

/-!
Verification of the audio pipeline of `xiaozhidoubao` (src/main/audio_manager.cc).

The embedding models the `AudioManager` instance state as a record and each
public operation as a pure function on that record, returning the new state
together with the list of device calls (`bsp_play_audio`,
`bsp_play_audio_stream`, `bsp_audio_stop`) the operation performed, in order.

Modelling conventions:
  * byte arrays (`uint8_t*` buffers) are total functions `Nat → Nat`, where
    only indices below the corresponding size field are meaningful;
  * `size_t` quantities are `Nat`; the only place the source subtracts
    unsigned cursors without first comparing them is
    `finish_streaming_playback` and the merge branch of
    `feed_streaming_audio`, where `Nat` truncated subtraction coincides with
    the C value exactly when `read_pos ≤ write_pos` (the regime the theorems
    about those paths restrict to via a hypothesis);
  * `malloc` of the small temporary buffers is assumed to succeed;
  * the result of each device write (`esp_err_t`) is supplied as the `ok`
    parameter, applied uniformly to the writes of one operation; the
    failure branches of the source are embedded under `ok = false`;
  * concurrency is not modelled: each operation runs to completion, so the
    `is_streaming` re-checks inside loops see a constant value.
-/

/-- A call made to the board-support audio device. -/
inductive DeviceCall where
  | audioStop : DeviceCall
  | playAudio (bytes : List Nat) : DeviceCall
  | playStream (bytes : List Nat) : DeviceCall
deriving DecidableEq, Repr

/-- The fields of `AudioManager` that the embedded operations touch.
`recording_length` is counted in 16-bit samples (as in the source);
`recording_buffer_size` and all streaming quantities are in bytes. -/
structure AudioManagerState where
  sample_rate : Nat
  is_recording : Bool
  recording_length : Nat
  recording_buffer : Nat → Int
  recording_buffer_size : Nat
  is_streaming : Bool
  streaming_buffer : Nat → Nat
  streaming_buffer_size : Nat
  streaming_write_pos : Nat
  streaming_read_pos : Nat

/-- `STREAMING_BUFFER_SIZE = 64 * 1024` from audio_manager.h. -/
def STREAMING_BUFFER_SIZE : Nat := 64 * 1024

/-- The state right after the constructor
`AudioManager(sample_rate, recording_duration_sec, _)`:
`recording_buffer_size = sample_rate * recording_duration_sec * sizeof(int16_t)`,
all flags clear, cursors at zero, buffers zero-initialised
(malloc contents are modelled as zero; no claim depends on fresh-malloc bytes). -/
def initialState (sample_rate recording_duration_sec : Nat) : AudioManagerState :=
  { sample_rate := sample_rate
    is_recording := false
    recording_length := 0
    recording_buffer := fun _ => 0
    recording_buffer_size := sample_rate * recording_duration_sec * 2
    is_streaming := false
    streaming_buffer := fun _ => 0
    streaming_buffer_size := STREAMING_BUFFER_SIZE
    streaming_write_pos := 0
    streaming_read_pos := 0 }

/-- `AudioManager::start_recording`: only acts when not already recording. -/
def start_recording (s : AudioManagerState) : AudioManagerState :=
  if s.is_recording = false then
    { s with recording_length := 0, is_recording := true }
  else
    s

/-- `AudioManager::stop_recording`: only clears the flag (when set). -/
def stop_recording (s : AudioManagerState) : AudioManagerState :=
  if s.is_recording = true then
    { s with is_recording := false }
  else
    s

/-- The available-bytes computation used (inline, identically) by
`streaming_playback_task` and `stop_streaming_playback`:
`write - read` when `write ≥ read`, else `capacity - read + write`.
All quantities are `size_t`, hence `Nat` here. -/
def data_available (capacity write_pos read_pos : Nat) : Nat :=
  if read_pos ≤ write_pos then
    write_pos - read_pos
  else
    capacity - read_pos + write_pos

/-- One iteration of the recording half of `AudioManager::audio_record_task`:
if recording, append the captured chunk to the recording buffer when it
fits (`recording_length + n ≤ recording_buffer_size / sizeof(int16_t)`),
otherwise log and drop it whole.  `chunk` is the captured samples
(`pcm_data`, of `pcm_data_size = 2 * chunk.length` bytes).  The
send-queue half only copies the chunk to an external queue and does not
touch manager state, so it is not part of the state transition. -/
def audio_record_iteration (s : AudioManagerState) (chunk : List Int) :
    AudioManagerState :=
  if s.is_recording = false then
    s
  else if 0 < 2 * chunk.length then
    if s.recording_length + chunk.length ≤ s.recording_buffer_size / 2 then
      { s with
          recording_buffer := fun i =>
            if s.recording_length ≤ i ∧ i < s.recording_length + chunk.length then
              chunk.getD (i - s.recording_length) 0
            else
              s.recording_buffer i
          recording_length := s.recording_length + chunk.length }
    else
      s
  else
    s

/-- The 16-bit little-endian signed sample formed by two bytes, as produced
by the source's `(int16_t*)data` reinterpretation of the payload. -/
def toInt16 (lo hi : Nat) : Int :=
  let v : Nat := lo % 256 + 256 * (hi % 256)
  if v < 32768 then (v : Int) else (v : Int) - 65536

/-- Sample `i` of a byte payload (bytes `2*i` and `2*i + 1`). -/
def sampleAt (data : List Nat) (i : Nat) : Int :=
  toInt16 (data.getD (2 * i) 0) (data.getD (2 * i + 1) 0)

/-- The variation scan of `feed_streaming_audio`: `true` when some adjacent
pair of samples among the first `count` differs by more than 30
(`abs(samples[i] - samples[i-1]) > 30` for some `1 ≤ i < count`). -/
def has_variation (data : List Nat) (count : Nat) : Bool :=
  (List.range (count - 1)).any fun j =>
    30 < (sampleAt data (j + 1) - sampleAt data j).natAbs

/-- `chunk_size = 25 * (sample_rate / 1000) * sizeof(int16_t)`:
25 ms of samples, the immediate-play slice size of `feed_streaming_audio`. -/
def chunk_size (sample_rate : Nat) : Nat :=
  25 * (sample_rate / 1000) * 2

/-- The chunked immediate-play loop of `feed_streaming_audio`
(`while (offset + chunk_size <= len && is_streaming)`), entered with
`is_streaming` true, which no other code can change during the call in
this sequential model.  Returns the final `offset` together with the
`bsp_play_audio_stream` calls issued; a failed write (`ok = false`)
still counts as a call but breaks the loop, as in the source.
The guard also requires `0 < chunk`: in the source `chunk_size = 0`
(sample_rate < 1000) would loop forever at offset 0; the device never
runs there (`main.cc` fixes sample_rate = 16000). -/
def feed_loop (data : List Nat) (chunk offset : Nat) (ok : Bool) :
    Nat × List DeviceCall :=
  if h : 0 < chunk ∧ offset + chunk ≤ data.length then
    let call := DeviceCall.playStream ((data.drop offset).take chunk)
    if ok then
      let rest := feed_loop data chunk (offset + chunk) ok
      (rest.1, call :: rest.2)
    else
      (offset, [call])
  else
    (offset, [])
termination_by data.length - offset
decreasing_by omega

/-- `AudioManager::feed_streaming_audio(data, len)`.  Validation rejects
(no play, no buffer change) when: not streaming; `len < 128`; `len` odd;
or (`len ≥ 8` and) the variation scan finds no delta above 30.  Then with
`chunk = chunk_size sample_rate`:
  * `len ≥ chunk`: play whole chunks immediately via the loop; a positive
    leftover smaller than the ring capacity is copied to the start of the
    ring (`write_pos := leftover`, `read_pos := 0`);
  * `len < chunk`: with `buffered = write_pos - read_pos` (`size_t`
    subtraction; equal to the C value whenever `read_pos ≤ write_pos`),
    if `buffered + len ≥ chunk` play the merged bytes in one
    `bsp_play_audio_stream` call and on success reset both cursors;
    otherwise append to the ring when `write_pos + len < capacity`. -/
def feed_streaming_audio (s : AudioManagerState) (data : List Nat) (ok : Bool) :
    AudioManagerState × List DeviceCall :=
  if s.is_streaming = false then
    (s, [])
  else if data.length < 128 then
    (s, [])
  else if data.length % 2 ≠ 0 then
    (s, [])
  else if 2 * 4 ≤ data.length ∧ has_variation data (data.length / 2) = false then
    (s, [])
  else
    let chunk := chunk_size s.sample_rate
    if chunk ≤ data.length then
      let r := feed_loop data chunk 0 ok
      let remaining := data.length - r.1
      if 0 < remaining then
        if remaining < s.streaming_buffer_size then
          ({ s with
              streaming_buffer := fun i =>
                if i < remaining then data.getD (r.1 + i) 0
                else s.streaming_buffer i
              streaming_write_pos := remaining
              streaming_read_pos := 0 }, r.2)
        else
          (s, r.2)
      else
        (s, r.2)
    else
      let buffered := s.streaming_write_pos - s.streaming_read_pos
      if chunk ≤ buffered + data.length then
        let combined :=
          ((List.range buffered).map fun i =>
            s.streaming_buffer (s.streaming_read_pos + i)) ++ data
        if ok then
          ({ s with streaming_write_pos := 0, streaming_read_pos := 0 },
           [DeviceCall.playStream combined])
        else
          (s, [DeviceCall.playStream combined])
      else
        if s.streaming_write_pos + data.length < s.streaming_buffer_size then
          ({ s with
              streaming_buffer := fun i =>
                if s.streaming_write_pos ≤ i ∧
                    i < s.streaming_write_pos + data.length then
                  data.getD (i - s.streaming_write_pos) 0
                else
                  s.streaming_buffer i
              streaming_write_pos := s.streaming_write_pos + data.length }, [])
        else
          (s, [])

/-- The residual bytes read out of the ring by the drain of
`stop_streaming_playback` (one `memcpy` when `write ≥ read`, two when the
region wraps). -/
def drainBytes (s : AudioManagerState) (remaining : Nat) : List Nat :=
  if s.streaming_read_pos ≤ s.streaming_write_pos then
    (List.range remaining).map fun i =>
      s.streaming_buffer (s.streaming_read_pos + i)
  else
    ((List.range (s.streaming_buffer_size - s.streaming_read_pos)).map fun i =>
      s.streaming_buffer (s.streaming_read_pos + i)) ++
    ((List.range s.streaming_write_pos).map fun i => s.streaming_buffer i)

/-- `AudioManager::stop_streaming_playback`: no-op when not streaming;
otherwise clear the flag, stop the device, play the unread residue in one
`bsp_play_audio` call when `0 < remaining ≤ 16384` (an extra device stop
on write failure), only stop the device when the residue is larger
(warned, discarded) or zero, then zero the ring storage and reset both
cursors. -/
def stop_streaming_playback (s : AudioManagerState) (ok : Bool) :
    AudioManagerState × List DeviceCall :=
  if s.is_streaming = true then
    let remaining := data_available s.streaming_buffer_size
      s.streaming_write_pos s.streaming_read_pos
    let drainCalls :=
      if 0 < remaining ∧ remaining ≤ 16384 then
        DeviceCall.playAudio (drainBytes s remaining) ::
          (if ok then [] else [DeviceCall.audioStop])
      else if 16384 < remaining then
        [DeviceCall.audioStop]
      else
        [DeviceCall.audioStop]
    ({ s with
        is_streaming := false
        streaming_buffer := fun _ => 0
        streaming_write_pos := 0
        streaming_read_pos := 0 },
     DeviceCall.audioStop :: drainCalls)
  else
    (s, [])

/-- `AudioManager::start_streaming_playback`: run a full stop (discarding
its device calls here would be unfaithful, so they are returned), then
arm streaming with a cleared ring. -/
def start_streaming_playback (s : AudioManagerState) (ok : Bool) :
    AudioManagerState × List DeviceCall :=
  let r := stop_streaming_playback s ok
  ({ r.1 with
      is_streaming := true
      streaming_buffer := fun _ => 0
      streaming_write_pos := 0
      streaming_read_pos := 0 }, r.2)

/-- `AudioManager::finish_streaming_playback`: no-op when not streaming;
otherwise stop the device, compute `remaining = write_pos - read_pos`
(`size_t` subtraction, no wraparound read and no 16 KB bound), play it in
one `bsp_play_audio` call when positive (extra stop on failure), or just
stop the device again when zero, then clear the flag and reset both
cursors (the storage is not zeroed on this path). -/
def finish_streaming_playback (s : AudioManagerState) (ok : Bool) :
    AudioManagerState × List DeviceCall :=
  if s.is_streaming = true then
    let remaining := s.streaming_write_pos - s.streaming_read_pos
    let calls :=
      if 0 < remaining then
        DeviceCall.playAudio ((List.range remaining).map fun i =>
          s.streaming_buffer (s.streaming_read_pos + i)) ::
          (if ok then [] else [DeviceCall.audioStop])
      else
        [DeviceCall.audioStop]
    ({ s with
        is_streaming := false
        streaming_write_pos := 0
        streaming_read_pos := 0 },
     DeviceCall.audioStop :: calls)
  else
    (s, [])

/-- The `bsp_play_audio` calls (drain writes) among a call trace. -/
def playedAudio (calls : List DeviceCall) : List (List Nat) :=
  calls.filterMap fun c =>
    match c with
    | DeviceCall.playAudio bytes => some bytes
    | _ => none

/-- The `bsp_play_audio_stream` calls (immediate streaming writes) among a
call trace. -/
def playedStream (calls : List DeviceCall) : List (List Nat) :=
  calls.filterMap fun c =>
    match c with
    | DeviceCall.playStream bytes => some bytes
    | _ => none

/-- Claim C2: the available-bytes value is never negative (immediate from the
`Nat`/`size_t` representation) and never exceeds the ring capacity, for
every pair of cursor values each in `[0, capacity)`. -/
theorem data_available_le_capacity (capacity write_pos read_pos : Nat)
    (hw : write_pos < capacity) (hr : read_pos < capacity) :
    data_available capacity write_pos read_pos ≤ capacity := by
  unfold data_available
  split <;> omega

/-- Witness for C2 at concrete cursors inside a 65536-byte ring. -/
theorem data_available_le_capacity_witness :
    data_available 65536 100 65000 ≤ 65536 :=
  data_available_le_capacity 65536 100 65000 (by decide) (by decide)

/-- The manager as built by `main.cc` (`AudioManager(16000, 10, 32)`) with
streaming armed, used to instantiate theorems at concrete inputs. -/
def streamState : AudioManagerState :=
  { initialState 16000 10 with is_streaming := true }

/-- A manager mid-recording with one sample already captured. -/
def recState : AudioManagerState :=
  { initialState 16000 10 with is_recording := true, recording_length := 1 }

/-- Counterexample to claim C9 as stated: from a state already recording
(flag set, one sample captured), `start_recording` does not reset the
length to 0 — the whole body is guarded by `if (!is_recording)`. -/
theorem start_recording_no_reset_when_recording :
    ¬ ((start_recording recState).recording_length = 0 ∧
       (start_recording recState).is_recording = true) := by
  intro h
  have h1 : (start_recording recState).recording_length = 1 := by
    simp [start_recording, recState, initialState]
  omega

/-- Claim C9 (amended): after `start_recording` the recording flag is set;
the recording length is reset to 0 when recording was not already in
progress; a call while already recording changes nothing. -/
theorem start_recording_spec (s : AudioManagerState) :
    (start_recording s).is_recording = true ∧
    (s.is_recording = false → (start_recording s).recording_length = 0) ∧
    (s.is_recording = true → start_recording s = s) := by
  cases h : s.is_recording <;> simp [start_recording, h]

/-- Witness for C9 (amended) at the freshly constructed manager. -/
theorem start_recording_spec_witness :
    (start_recording (initialState 16000 10)).is_recording = true ∧
    (start_recording (initialState 16000 10)).recording_length = 0 :=
  ⟨(start_recording_spec (initialState 16000 10)).1,
   (start_recording_spec (initialState 16000 10)).2.1 rfl⟩

/-- Claim C10: `stop_recording` touches only the recording flag — the
recording length and buffer, the streaming flag and both streaming
cursors are unchanged, so a completed recording stays readable. -/
theorem stop_recording_frame (s : AudioManagerState) :
    (stop_recording s).recording_length = s.recording_length ∧
    (stop_recording s).recording_buffer = s.recording_buffer ∧
    (stop_recording s).is_streaming = s.is_streaming ∧
    (stop_recording s).streaming_write_pos = s.streaming_write_pos ∧
    (stop_recording s).streaming_read_pos = s.streaming_read_pos := by
  cases h : s.is_recording <;> simp [stop_recording, h]

/-- Claim C8: the RecordingBuffer invariant `recording_length ≤ capacity`
(in samples: `recording_buffer_size / sizeof(int16_t)`) is preserved by
every capture iteration, and an over-capacity chunk is dropped whole —
the state is left entirely unchanged, never partially written. -/
theorem record_iteration_invariant (s : AudioManagerState) (chunk : List Int)
    (h : s.recording_length ≤ s.recording_buffer_size / 2) :
    (audio_record_iteration s chunk).recording_length ≤
      s.recording_buffer_size / 2 ∧
    (s.recording_buffer_size / 2 < s.recording_length + chunk.length →
      audio_record_iteration s chunk = s) := by
  unfold audio_record_iteration
  split_ifs with h1 h2 h3
  · exact ⟨h, fun _ => rfl⟩
  · exact ⟨by simpa using h3, fun hover => by omega⟩
  · exact ⟨h, fun _ => rfl⟩
  · exact ⟨h, fun _ => rfl⟩

/-- Witness for C8: a 320-sample chunk (20 ms at 16 kHz) appended to the
fresh recorder keeps the invariant. -/
theorem record_iteration_invariant_witness :
    (audio_record_iteration { initialState 16000 10 with is_recording := true }
        (List.replicate 320 0)).recording_length ≤
      (initialState 16000 10).recording_buffer_size / 2 :=
  (record_iteration_invariant
      { initialState 16000 10 with is_recording := true }
      (List.replicate 320 0) (by decide)).1

/-- Claim C3: every feed that fails validation — streaming not active,
length below 128, odd length, or no adjacent-sample delta above 30 —
performs no device call and returns the state unchanged (ring contents
and both cursors included). -/
theorem feed_invalid_rejected (s : AudioManagerState) (data : List Nat)
    (ok : Bool)
    (h : s.is_streaming = false ∨ data.length < 128 ∨ data.length % 2 = 1 ∨
         has_variation data (data.length / 2) = false) :
    feed_streaming_audio s data ok = (s, []) := by
  cases hb : s.is_streaming with
  | false =>
    unfold feed_streaming_audio
    rw [if_pos hb]
  | true =>
    have hb' : ¬ (s.is_streaming = false) := by rw [hb]; simp
    rcases h with h | h | h | h
    · rw [hb] at h; cases h
    · unfold feed_streaming_audio
      rw [if_neg hb', if_pos h]
    · unfold feed_streaming_audio
      rw [if_neg hb']
      by_cases h128 : data.length < 128
      · rw [if_pos h128]
      · rw [if_neg h128, if_pos (by omega)]
    · unfold feed_streaming_audio
      rw [if_neg hb']
      by_cases h128 : data.length < 128
      · rw [if_pos h128]
      · rw [if_neg h128]
        by_cases hodd : data.length % 2 ≠ 0
        · rw [if_pos hodd]
        · rw [if_neg hodd, if_pos ⟨by omega, h⟩]

/-- Witness for C3: a 127-byte feed in the active streaming state is
discarded outright regardless of content. -/
theorem feed_invalid_rejected_witness :
    feed_streaming_audio streamState (List.replicate 127 5) true =
      (streamState, []) :=
  feed_invalid_rejected streamState (List.replicate 127 5) true
    (Or.inr (Or.inl (by simp)))

/-- When streaming is off, `stop_streaming_playback` does nothing. -/
theorem stop_streaming_playback_noop (s : AudioManagerState) (ok : Bool)
    (hb : s.is_streaming = false) :
    stop_streaming_playback s ok = (s, []) := by
  unfold stop_streaming_playback
  rw [if_neg (by rw [hb]; simp)]

/-- When streaming is on, the state after `stop_streaming_playback` has the
flag cleared, the storage zeroed and both cursors reset. -/
theorem stop_streaming_playback_fst (s : AudioManagerState) (ok : Bool)
    (hb : s.is_streaming = true) :
    (stop_streaming_playback s ok).1 =
      { s with
          is_streaming := false
          streaming_buffer := fun _ => 0
          streaming_write_pos := 0
          streaming_read_pos := 0 } := by
  unfold stop_streaming_playback
  rw [if_pos hb]

/-- When streaming is on, the device calls of `stop_streaming_playback` are
a stop followed by the drain branch chosen by the residue size. -/
theorem stop_streaming_playback_snd (s : AudioManagerState) (ok : Bool)
    (hb : s.is_streaming = true) :
    (stop_streaming_playback s ok).2 =
      DeviceCall.audioStop ::
        (if 0 < data_available s.streaming_buffer_size s.streaming_write_pos
              s.streaming_read_pos ∧
            data_available s.streaming_buffer_size s.streaming_write_pos
              s.streaming_read_pos ≤ 16384 then
          DeviceCall.playAudio (drainBytes s
            (data_available s.streaming_buffer_size s.streaming_write_pos
              s.streaming_read_pos)) ::
            (if ok then [] else [DeviceCall.audioStop])
        else if 16384 < data_available s.streaming_buffer_size
            s.streaming_write_pos s.streaming_read_pos then
          [DeviceCall.audioStop]
        else
          [DeviceCall.audioStop]) := by
  unfold stop_streaming_playback
  rw [if_pos hb]

/-- Claim C5: `stop_streaming_playback` is idempotent.  Under the
reachable-state invariant (cursors are zero whenever streaming is off),
a second consecutive call returns the exact state of the first and makes
no device call at all; after the first call streaming is off with both
cursors at zero, and the residual-drain `bsp_play_audio` write happens
at most once across the two calls. -/
theorem stop_streaming_idempotent (s : AudioManagerState) (ok : Bool)
    (hinv : s.is_streaming = false →
      s.streaming_write_pos = 0 ∧ s.streaming_read_pos = 0) :
    (stop_streaming_playback (stop_streaming_playback s ok).1 ok).1 =
      (stop_streaming_playback s ok).1 ∧
    (stop_streaming_playback (stop_streaming_playback s ok).1 ok).2 = [] ∧
    (stop_streaming_playback s ok).1.is_streaming = false ∧
    (stop_streaming_playback s ok).1.streaming_write_pos = 0 ∧
    (stop_streaming_playback s ok).1.streaming_read_pos = 0 ∧
    (playedAudio ((stop_streaming_playback s ok).2 ++
      (stop_streaming_playback (stop_streaming_playback s ok).1 ok).2)).length
      ≤ 1 := by
  cases hb : s.is_streaming with
  | false =>
    have h0 := hinv hb
    have hn := stop_streaming_playback_noop s ok hb
    rw [hn]
    simp only []
    rw [hn]
    simp [hb, h0.1, h0.2, playedAudio]
  | true =>
    have hfst := stop_streaming_playback_fst s ok hb
    have hsecond := stop_streaming_playback_noop
      (stop_streaming_playback s ok).1 ok (by rw [hfst])
    rw [hsecond]
    refine ⟨rfl, rfl, ?_, ?_, ?_, ?_⟩
    · rw [hfst]
    · rw [hfst]
    · rw [hfst]
    · rw [List.append_nil, stop_streaming_playback_snd s ok hb]
      split_ifs <;> cases ok <;> simp [playedAudio]

/-- An active manager holding 4 unread bytes at the start of the ring,
used to instantiate the teardown theorems. -/
def fwState : AudioManagerState :=
  { streamState with streaming_write_pos := 4 }

/-- Witness for C5 at an active manager holding 4 unread ring bytes. -/
theorem stop_streaming_idempotent_witness :
    (stop_streaming_playback (stop_streaming_playback fwState true).1 true).1 =
      (stop_streaming_playback fwState true).1 ∧
    (stop_streaming_playback fwState true).1.is_streaming = false :=
  ⟨(stop_streaming_idempotent fwState true (by decide)).1,
   (stop_streaming_idempotent fwState true (by decide)).2.2.1⟩

/-- The drain of `stop_streaming_playback` extracts exactly the computed
number of residual bytes, in both the contiguous and the wrapped case. -/
theorem drainBytes_length (s : AudioManagerState) :
    (drainBytes s (data_available s.streaming_buffer_size
      s.streaming_write_pos s.streaming_read_pos)).length =
    data_available s.streaming_buffer_size
      s.streaming_write_pos s.streaming_read_pos := by
  unfold drainBytes data_available
  split <;> simp

/-- Claim C6: on teardown via `stop_streaming_playback` from the active
state, the unread residue is played through exactly one `bsp_play_audio`
write precisely when its count is positive and at most 16384 bytes
(and then the bytes written are exactly the residue read out of the
ring); otherwise — larger residue (discarded with a warning) or empty —
nothing is played; afterwards the ring storage is zeroed and both
cursors are reset. -/
theorem stop_streaming_drain (s : AudioManagerState) (ok : Bool)
    (hs : s.is_streaming = true) :
    (0 < data_available s.streaming_buffer_size s.streaming_write_pos
        s.streaming_read_pos ∧
      data_available s.streaming_buffer_size s.streaming_write_pos
        s.streaming_read_pos ≤ 16384 →
      playedAudio (stop_streaming_playback s ok).2 =
        [drainBytes s (data_available s.streaming_buffer_size
          s.streaming_write_pos s.streaming_read_pos)]) ∧
    (¬ (0 < data_available s.streaming_buffer_size s.streaming_write_pos
        s.streaming_read_pos ∧
      data_available s.streaming_buffer_size s.streaming_write_pos
        s.streaming_read_pos ≤ 16384) →
      playedAudio (stop_streaming_playback s ok).2 = []) ∧
    (stop_streaming_playback s ok).1.streaming_buffer = (fun _ => 0) ∧
    (stop_streaming_playback s ok).1.streaming_write_pos = 0 ∧
    (stop_streaming_playback s ok).1.streaming_read_pos = 0 := by
  refine ⟨?_, ?_, ?_, ?_, ?_⟩
  · intro hcond
    rw [stop_streaming_playback_snd s ok hs, if_pos hcond]
    cases ok <;> simp [playedAudio]
  · intro hcond
    rw [stop_streaming_playback_snd s ok hs, if_neg hcond]
    split <;> simp [playedAudio]
  · rw [stop_streaming_playback_fst s ok hs]
  · rw [stop_streaming_playback_fst s ok hs]
  · rw [stop_streaming_playback_fst s ok hs]

/-- Witness for C6 at an active manager holding 4 unread ring bytes:
the drain plays them in one write and resets the ring. -/
theorem stop_streaming_drain_witness :
    playedAudio (stop_streaming_playback fwState true).2 =
      [drainBytes fwState (data_available fwState.streaming_buffer_size
        fwState.streaming_write_pos fwState.streaming_read_pos)] ∧
    (stop_streaming_playback fwState true).1.streaming_write_pos = 0 :=
  ⟨(stop_streaming_drain fwState true rfl).1 (by decide),
   (stop_streaming_drain fwState true rfl).2.2.2.2⟩

/-- When streaming is on, the state after `finish_streaming_playback` has
the flag cleared and both cursors reset (storage untouched). -/
theorem finish_streaming_playback_fst (s : AudioManagerState) (ok : Bool)
    (hb : s.is_streaming = true) :
    (finish_streaming_playback s ok).1 =
      { s with
          is_streaming := false
          streaming_write_pos := 0
          streaming_read_pos := 0 } := by
  unfold finish_streaming_playback
  rw [if_pos hb]

/-- When streaming is on, the device calls of `finish_streaming_playback`
are a stop followed by the unbounded residue flush. -/
theorem finish_streaming_playback_snd (s : AudioManagerState) (ok : Bool)
    (hb : s.is_streaming = true) :
    (finish_streaming_playback s ok).2 =
      DeviceCall.audioStop ::
        (if 0 < s.streaming_write_pos - s.streaming_read_pos then
          DeviceCall.playAudio
            ((List.range (s.streaming_write_pos - s.streaming_read_pos)).map
              fun i => s.streaming_buffer (s.streaming_read_pos + i)) ::
            (if ok then [] else [DeviceCall.audioStop])
        else
          [DeviceCall.audioStop]) := by
  unfold finish_streaming_playback
  rw [if_pos hb]

/-- Claim C7: `finish_streaming_playback` changes nothing when streaming
is off; from the active state (restricted to `read_pos ≤ write_pos`,
where the source's unsigned `write - read` equals the true count) it
flushes the `write_pos - read_pos` unread bytes through exactly one
`bsp_play_audio` write with no 16 KB bound when that count is positive,
plays nothing when it is zero, and leaves streaming off with both
cursors reset. -/
theorem finish_streaming_spec (s : AudioManagerState) (ok : Bool)
    (hr : s.streaming_read_pos ≤ s.streaming_write_pos) :
    (s.is_streaming = false → finish_streaming_playback s ok = (s, [])) ∧
    (s.is_streaming = true →
      (finish_streaming_playback s ok).1.is_streaming = false ∧
      (finish_streaming_playback s ok).1.streaming_write_pos = 0 ∧
      (finish_streaming_playback s ok).1.streaming_read_pos = 0 ∧
      (0 < s.streaming_write_pos - s.streaming_read_pos →
        playedAudio (finish_streaming_playback s ok).2 =
          [(List.range (s.streaming_write_pos - s.streaming_read_pos)).map
            fun i => s.streaming_buffer (s.streaming_read_pos + i)]) ∧
      (s.streaming_write_pos - s.streaming_read_pos = 0 →
        playedAudio (finish_streaming_playback s ok).2 = [])) := by
  constructor
  · intro hb
    unfold finish_streaming_playback
    rw [if_neg (by rw [hb]; simp)]
  · intro hb
    refine ⟨?_, ?_, ?_, ?_, ?_⟩
    · rw [finish_streaming_playback_fst s ok hb]
    · rw [finish_streaming_playback_fst s ok hb]
    · rw [finish_streaming_playback_fst s ok hb]
    · intro hpos
      rw [finish_streaming_playback_snd s ok hb, if_pos hpos]
      cases ok <;> simp [playedAudio]
    · intro hzero
      rw [finish_streaming_playback_snd s ok hb, if_neg (by omega)]
      simp [playedAudio]

/-- Witness for C7 at an active manager holding 4 unread ring bytes. -/
theorem finish_streaming_spec_witness :
    playedAudio (finish_streaming_playback fwState true).2 =
      [(List.range (fwState.streaming_write_pos -
          fwState.streaming_read_pos)).map
        fun i => fwState.streaming_buffer (fwState.streaming_read_pos + i)] ∧
    (finish_streaming_playback fwState true).1.is_streaming = false := by
  have h := (finish_streaming_spec fwState true (by decide)).2 rfl
  exact ⟨h.2.2.2.1 (by decide), h.1⟩

/-- One successful pass of the immediate-play loop. -/
theorem feed_loop_step (data : List Nat) (c o : Nat)
    (h : 0 < c ∧ o + c ≤ data.length) :
    feed_loop data c o true =
      ((feed_loop data c (o + c) true).1,
       DeviceCall.playStream ((data.drop o).take c) ::
         (feed_loop data c (o + c) true).2) := by
  rw [feed_loop]
  rw [dif_pos h]
  simp

/-- The immediate-play loop halts when no whole chunk is left. -/
theorem feed_loop_halt (data : List Nat) (c o : Nat)
    (h : ¬ (0 < c ∧ o + c ≤ data.length)) :
    feed_loop data c o true = (o, []) := by
  rw [feed_loop]
  rw [dif_neg h]

/-- Reading a list back element by element reproduces it. -/
theorem map_getD_range_self (l : List Nat) :
    (List.range l.length).map (fun i => l.getD i 0) = l := by
  apply List.ext_getElem
  · simp
  · intro i h1 h2
    simp only [List.getElem_map, List.getElem_range, List.getD]
    rw [List.get?_eq_getElem?, List.getElem?_eq_getElem h2]
    rfl

/-- The feed chunk size is even (a whole number of 16-bit samples). -/
theorem chunk_size_even (sample_rate : Nat) : chunk_size sample_rate % 2 = 0 := by
  unfold chunk_size
  omega

/-- Claim C1: an active-state feed of `3 * chunk_size + 10` bytes passing
validation performs exactly 3 immediate `bsp_play_audio_stream` writes of
`chunk_size` bytes each (the three consecutive slices of the payload),
and afterwards exactly the 10 leftover tail bytes sit in the ring buffer
(`write_pos = 10`, `read_pos = 0`) for the next feed. -/
theorem feed_three_chunks_plus_tail (s : AudioManagerState) (data : List Nat)
    (hs : s.is_streaming = true)
    (hsr : 1000 ≤ s.sample_rate)
    (hlen : data.length = 3 * chunk_size s.sample_rate + 10)
    (hvar : has_variation data (data.length / 2) = true)
    (hcap : 10 < s.streaming_buffer_size) :
    (feed_streaming_audio s data true).2 =
      [DeviceCall.playStream (data.take (chunk_size s.sample_rate)),
       DeviceCall.playStream
         ((data.drop (chunk_size s.sample_rate)).take
           (chunk_size s.sample_rate)),
       DeviceCall.playStream
         ((data.drop (2 * chunk_size s.sample_rate)).take
           (chunk_size s.sample_rate))] ∧
    (∀ bytes ∈ playedStream (feed_streaming_audio s data true).2,
      bytes.length = chunk_size s.sample_rate) ∧
    (feed_streaming_audio s data true).1.streaming_write_pos = 10 ∧
    (feed_streaming_audio s data true).1.streaming_read_pos = 0 ∧
    (∀ i < 10, (feed_streaming_audio s data true).1.streaming_buffer i =
      data.getD (3 * chunk_size s.sample_rate + i) 0) := by
  have hc50 : chunk_size s.sample_rate = 50 * (s.sample_rate / 1000) := by
    unfold chunk_size
    ring
  have hn : 1 ≤ s.sample_rate / 1000 :=
    (Nat.one_le_div_iff (by decide)).mpr hsr
  have hcpos : 0 < chunk_size s.sample_rate := by omega
  have h0 : feed_loop data (chunk_size s.sample_rate) 0 true =
      (chunk_size s.sample_rate + chunk_size s.sample_rate +
        chunk_size s.sample_rate,
       [DeviceCall.playStream (data.take (chunk_size s.sample_rate)),
        DeviceCall.playStream
          ((data.drop (chunk_size s.sample_rate)).take
            (chunk_size s.sample_rate)),
        DeviceCall.playStream
          ((data.drop (chunk_size s.sample_rate + chunk_size s.sample_rate)).take
            (chunk_size s.sample_rate))]) := by
    rw [feed_loop_step data _ 0 ⟨hcpos, by omega⟩,
        feed_loop_step data _ _ ⟨hcpos, by omega⟩,
        feed_loop_step data _ _ ⟨hcpos, by omega⟩,
        feed_loop_halt data _ _ (by omega)]
    simp
  have hsne : ¬ (s.is_streaming = false) := by rw [hs]; simp
  have h128 : ¬ (data.length < 128) := by omega
  have hodd : ¬ (data.length % 2 ≠ 0) := by omega
  have h4 : ¬ (2 * 4 ≤ data.length ∧
      has_variation data (data.length / 2) = false) := by
    simp [hvar]
  have hchunk : chunk_size s.sample_rate ≤ data.length := by omega
  have hrem : data.length -
      (chunk_size s.sample_rate + chunk_size s.sample_rate +
        chunk_size s.sample_rate) = 10 := by omega
  have htail : 2 * chunk_size s.sample_rate =
      chunk_size s.sample_rate + chunk_size s.sample_rate := by ring
  simp only [feed_streaming_audio, if_neg hsne, if_neg h128, if_neg hodd,
    if_neg h4, if_pos hchunk, h0, hrem]
  rw [if_pos (by omega : (0:Nat) < 10), if_pos hcap]
  refine ⟨?_, ?_, rfl, rfl, ?_⟩
  · rw [htail]
  · intro bytes hmem
    simp [playedStream] at hmem
    rcases hmem with h | h | h <;> subst h <;> simp <;> omega
  · intro i hi
    simp only []
    rw [if_pos hi]
    congr 1
    omega

/-- The C1 scenario payload: 2410 = 3 × 800 + 10 bytes whose first two
samples are 0 and 100, so the variation scan accepts it. -/
def dC1 : List Nat := 0 :: 0 :: 100 :: 0 :: List.replicate 2406 0

/-- Witness for C1 on the 16 kHz manager (`chunk_size = 800`) fed 2410
bytes of accepted tone data. -/
theorem feed_three_chunks_plus_tail_witness :
    (feed_streaming_audio streamState dC1 true).2 =
      [DeviceCall.playStream (dC1.take (chunk_size streamState.sample_rate)),
       DeviceCall.playStream
         ((dC1.drop (chunk_size streamState.sample_rate)).take
           (chunk_size streamState.sample_rate)),
       DeviceCall.playStream
         ((dC1.drop (2 * chunk_size streamState.sample_rate)).take
           (chunk_size streamState.sample_rate))] ∧
    (feed_streaming_audio streamState dC1 true).1.streaming_write_pos = 10 := by
  have hdlen : dC1.length = 2410 := by simp [dC1]
  have hlen : dC1.length = 3 * chunk_size streamState.sample_rate + 10 := by
    rw [hdlen]
    simp [streamState, initialState, chunk_size]
  have hvar : has_variation dC1 (dC1.length / 2) = true := by
    unfold has_variation
    rw [hdlen]
    apply List.any_eq_true.mpr
    refine ⟨0, by simp, by decide⟩
  have h := feed_three_chunks_plus_tail streamState dC1 rfl (by decide)
    hlen hvar (by decide)
  exact ⟨h.1, h.2.2.1⟩


/-- A payload of exactly `chunk_size - 1 = 799` bytes for the 16 kHz
manager: odd length, so the parity check fires whatever the content. -/
def d799 : List Nat := List.replicate 799 37

/-- Counterexample to claim C4 as stated: a feed of exactly
`chunk_size - 1` bytes is NOT buffered — `chunk_size` is always even
(a whole number of 16-bit samples), so `chunk_size - 1` is odd and the
parity check discards the payload before any buffering: the state is
returned unchanged (write cursor still 0, nothing retained) and no
device call is made. -/
theorem feed_chunkMinus1_not_buffered :
    d799.length = chunk_size streamState.sample_rate - 1 ∧
    feed_streaming_audio streamState d799 true = (streamState, []) ∧
    ¬ (0 < (feed_streaming_audio streamState d799 true).1.streaming_write_pos -
        (feed_streaming_audio streamState d799 true).1.streaming_read_pos) := by
  have hlen : d799.length = 799 := by simp [d799]
  have hreject : feed_streaming_audio streamState d799 true =
      (streamState, []) := by
    unfold feed_streaming_audio
    rw [if_neg (by decide), if_neg (by omega), if_pos (by omega)]
  refine ⟨?_, hreject, ?_⟩
  · rw [hlen]
    simp [streamState, initialState, chunk_size]
  · rw [hreject]
    simp [streamState, initialState]

/-- A validated feed shorter than `chunk_size`, with too little buffered to
complete a chunk, appends to the ring at the write cursor and plays
nothing. -/
theorem feed_small_append (s : AudioManagerState) (data : List Nat) (ok : Bool)
    (hs : s.is_streaming = true)
    (h128 : 128 ≤ data.length)
    (heven : data.length % 2 = 0)
    (hvar : has_variation data (data.length / 2) = true)
    (hsmall : data.length < chunk_size s.sample_rate)
    (hnot : s.streaming_write_pos - s.streaming_read_pos + data.length <
      chunk_size s.sample_rate)
    (hcap : s.streaming_write_pos + data.length < s.streaming_buffer_size) :
    feed_streaming_audio s data ok =
      ({ s with
          streaming_buffer := fun i =>
            if s.streaming_write_pos ≤ i ∧
                i < s.streaming_write_pos + data.length then
              data.getD (i - s.streaming_write_pos) 0
            else
              s.streaming_buffer i
          streaming_write_pos := s.streaming_write_pos + data.length }, []) := by
  have hsne : ¬ (s.is_streaming = false) := by rw [hs]; simp
  have h128' : ¬ (data.length < 128) := by omega
  have hodd : ¬ (data.length % 2 ≠ 0) := by omega
  have h4 : ¬ (2 * 4 ≤ data.length ∧
      has_variation data (data.length / 2) = false) := by simp [hvar]
  have hbig : ¬ (chunk_size s.sample_rate ≤ data.length) := by omega
  have hmerge : ¬ (chunk_size s.sample_rate ≤
      s.streaming_write_pos - s.streaming_read_pos + data.length) := by omega
  simp only [feed_streaming_audio, if_neg hsne, if_neg h128', if_neg hodd,
    if_neg h4, if_neg hbig, if_neg hmerge, if_pos hcap]

/-- A validated feed shorter than `chunk_size` that completes a chunk with
the buffered bytes plays the merged payload in one streaming write and
(on success) clears both cursors. -/
theorem feed_small_merge (s : AudioManagerState) (data : List Nat)
    (hs : s.is_streaming = true)
    (h128 : 128 ≤ data.length)
    (heven : data.length % 2 = 0)
    (hvar : has_variation data (data.length / 2) = true)
    (hsmall : data.length < chunk_size s.sample_rate)
    (henough : chunk_size s.sample_rate ≤
      s.streaming_write_pos - s.streaming_read_pos + data.length) :
    feed_streaming_audio s data true =
      ({ s with streaming_write_pos := 0, streaming_read_pos := 0 },
       [DeviceCall.playStream
         (((List.range (s.streaming_write_pos - s.streaming_read_pos)).map
            fun i => s.streaming_buffer (s.streaming_read_pos + i)) ++
          data)]) := by
  have hsne : ¬ (s.is_streaming = false) := by rw [hs]; simp
  have h128' : ¬ (data.length < 128) := by omega
  have hodd : ¬ (data.length % 2 ≠ 0) := by omega
  have h4 : ¬ (2 * 4 ≤ data.length ∧
      has_variation data (data.length / 2) = false) := by simp [hvar]
  have hbig : ¬ (chunk_size s.sample_rate ≤ data.length) := by omega
  simp only [feed_streaming_audio, if_neg hsne, if_neg h128', if_neg hodd,
    if_neg h4, if_neg hbig, if_pos henough]
  simp

/-- Claim C4 (amended): `chunk_size - 1` is odd, hence discarded; the
nearest payload the boundary can exercise is `chunk_size - 2` bytes.  A
validated feed of exactly `chunk_size - 2` bytes into the empty active
ring is buffered, not played; it is then played (inside the one merged
`bsp_play_audio_stream` write, ahead of the new bytes) by the next
validated sub-chunk feed, which brings the combined total to at least
`chunk_size`. -/
theorem feed_chunkMinus2_buffered_then_played (s : AudioManagerState)
    (d1 d2 : List Nat)
    (hs : s.is_streaming = true)
    (hw : s.streaming_write_pos = 0)
    (hr : s.streaming_read_pos = 0)
    (hc : 130 ≤ chunk_size s.sample_rate)
    (h1 : d1.length = chunk_size s.sample_rate - 2)
    (hv1 : has_variation d1 (d1.length / 2) = true)
    (hcap1 : d1.length < s.streaming_buffer_size)
    (h2a : 128 ≤ d2.length)
    (h2b : d2.length % 2 = 0)
    (h2c : d2.length < chunk_size s.sample_rate)
    (hv2 : has_variation d2 (d2.length / 2) = true) :
    (feed_streaming_audio s d1 true).2 = [] ∧
    (feed_streaming_audio s d1 true).1.streaming_write_pos -
      (feed_streaming_audio s d1 true).1.streaming_read_pos = d1.length ∧
    (feed_streaming_audio (feed_streaming_audio s d1 true).1 d2 true).2 =
      [DeviceCall.playStream (d1 ++ d2)] ∧
    (feed_streaming_audio (feed_streaming_audio s d1 true).1
      d2 true).1.streaming_write_pos = 0 ∧
    (feed_streaming_audio (feed_streaming_audio s d1 true).1
      d2 true).1.streaming_read_pos = 0 := by
  have hceven : chunk_size s.sample_rate % 2 = 0 := chunk_size_even s.sample_rate
  have hfeed1 := feed_small_append s d1 true hs (by omega) (by omega) hv1
    (by omega) (by omega) (by omega)
  have hsnd1 : (feed_streaming_audio s d1 true).2 = [] := by rw [hfeed1]
  have hw1 : (feed_streaming_audio s d1 true).1.streaming_write_pos =
      s.streaming_write_pos + d1.length := by rw [hfeed1]
  have hr1 : (feed_streaming_audio s d1 true).1.streaming_read_pos =
      s.streaming_read_pos := by rw [hfeed1]
  have hstream1 : (feed_streaming_audio s d1 true).1.is_streaming = true := by
    rw [hfeed1]
    exact hs
  have hsr1 : (feed_streaming_audio s d1 true).1.sample_rate = s.sample_rate := by
    rw [hfeed1]
  have hbuf1 : ∀ i, i < d1.length →
      (feed_streaming_audio s d1 true).1.streaming_buffer
        (s.streaming_read_pos + i) = d1.getD i 0 := by
    intro i hi
    rw [hfeed1]
    show (if s.streaming_write_pos ≤ s.streaming_read_pos + i ∧
        s.streaming_read_pos + i < s.streaming_write_pos + d1.length then
      d1.getD (s.streaming_read_pos + i - s.streaming_write_pos) 0
    else
      s.streaming_buffer (s.streaming_read_pos + i)) = d1.getD i 0
    rw [if_pos (by omega)]
    congr 1
    omega
  have hmerge2 := feed_small_merge (feed_streaming_audio s d1 true).1 d2
    hstream1 h2a h2b hv2 (by rw [hsr1]; exact h2c)
    (by rw [hsr1, hw1, hr1, hw, hr]; omega)
  have hread : (List.range
      ((feed_streaming_audio s d1 true).1.streaming_write_pos -
        (feed_streaming_audio s d1 true).1.streaming_read_pos)).map
      (fun i => (feed_streaming_audio s d1 true).1.streaming_buffer
        ((feed_streaming_audio s d1 true).1.streaming_read_pos + i)) = d1 := by
    have hlen1 : (feed_streaming_audio s d1 true).1.streaming_write_pos -
        (feed_streaming_audio s d1 true).1.streaming_read_pos = d1.length := by
      rw [hw1, hr1, hw, hr]
      omega
    rw [hlen1, hr1]
    rw [List.map_congr_left (fun i hi => hbuf1 i (List.mem_range.mp hi))]
    exact map_getD_range_self d1
  refine ⟨hsnd1, by rw [hw1, hr1, hw, hr]; omega, ?_, ?_, ?_⟩
  · rw [hmerge2]
    rw [hread]
  · rw [hmerge2]
  · rw [hmerge2]

/-- A valid 798-byte payload (`chunk_size - 2` at 16 kHz) whose first two
samples are 0 and 100, so the variation scan accepts it. -/
def d798 : List Nat := 0 :: 0 :: 100 :: 0 :: List.replicate 794 0

/-- A valid follow-up payload of 128 bytes accepted by validation. -/
def d128 : List Nat := 0 :: 0 :: 100 :: 0 :: List.replicate 124 0

/-- Witness for C4 (amended) on the 16 kHz manager: 798 bytes are buffered
silently, then a 128-byte feed triggers one merged play of both. -/
theorem feed_chunkMinus2_witness :
    (feed_streaming_audio streamState d798 true).2 = [] ∧
    (feed_streaming_audio (feed_streaming_audio streamState d798 true).1
      d128 true).2 = [DeviceCall.playStream (d798 ++ d128)] := by
  have h798 : d798.length = 798 := by simp [d798]
  have h128l : d128.length = 128 := by simp [d128]
  have hv1 : has_variation d798 (d798.length / 2) = true := by
    unfold has_variation
    rw [h798]
    exact List.any_eq_true.mpr ⟨0, by simp, by decide⟩
  have hv2 : has_variation d128 (d128.length / 2) = true := by
    unfold has_variation
    rw [h128l]
    exact List.any_eq_true.mpr ⟨0, by simp, by decide⟩
  have h := feed_chunkMinus2_buffered_then_played streamState d798 d128
    rfl rfl rfl (by decide)
    (by rw [h798]; decide) hv1 (by rw [h798]; decide)
    (by omega) (by omega) (by rw [h128l]; decide) hv2
  exact ⟨h.1, h.2.2.1⟩

/-- The cursor discipline every reachable manager state satisfies: the read
cursor never passes the write cursor (no embedded operation wraps the
ring), and when streaming is off both cursors are zero.  `initialState`
satisfies it and every embedded operation preserves it, which justifies
assuming it of the pre-state in the teardown theorems. -/
def cursors_ok (s : AudioManagerState) : Prop :=
  s.streaming_read_pos ≤ s.streaming_write_pos ∧
  (s.is_streaming = false →
    s.streaming_write_pos = 0 ∧ s.streaming_read_pos = 0)

/-- The constructed state satisfies the cursor discipline. -/
theorem cursors_ok_initial (sample_rate recording_duration_sec : Nat) :
    cursors_ok (initialState sample_rate recording_duration_sec) := by
  constructor <;> simp [initialState]

/-- Recording control does not touch the streaming cursors. -/
theorem cursors_ok_recording (s : AudioManagerState) (chunk : List Int)
    (h : cursors_ok s) :
    cursors_ok (start_recording s) ∧ cursors_ok (stop_recording s) ∧
    cursors_ok (audio_record_iteration s chunk) := by
  unfold cursors_ok at h ⊢
  unfold start_recording stop_recording audio_record_iteration
  split_ifs <;> simp_all

/-- Streaming start and both teardown paths restore the cursor discipline. -/
theorem cursors_ok_lifecycle (s : AudioManagerState) (ok : Bool)
    (h : cursors_ok s) :
    cursors_ok (start_streaming_playback s ok).1 ∧
    cursors_ok (stop_streaming_playback s ok).1 ∧
    cursors_ok (finish_streaming_playback s ok).1 := by
  unfold cursors_ok at h ⊢
  unfold start_streaming_playback stop_streaming_playback
    finish_streaming_playback
  split_ifs <;> simp_all

/-- Every feed preserves the cursor discipline: rejected feeds change
nothing, the big-payload tail starts the ring over at `(0, leftover)`,
a merged play clears both cursors, and an append only advances the
write cursor. -/
theorem cursors_ok_feed (s : AudioManagerState) (data : List Nat) (ok : Bool)
    (h : cursors_ok s) :
    cursors_ok (feed_streaming_audio s data ok).1 := by
  unfold cursors_ok at h ⊢
  simp only [feed_streaming_audio]
  split_ifs <;> simp_all <;> omega
